import Mathlib

/-!
Verification of the variable-parsing and command-execution pipeline of the
obsidian-shellcommands plugin, via a shallow embedding of its TypeScript
sources into Lean.

Conventions used throughout this development:
- JavaScript null / undefined values are embedded as Option.none.
- Process exit codes are embedded as Option Int (none embeds a null exit
  code, which Node.js reports when a process is terminated by a signal).
- The Node.js path module is external to the repository, so functions that
  depend on it (path.isAbsolute, path.join) take those operations as
  explicit function parameters; concrete POSIX-flavoured instances are
  provided for evaluating theorems at concrete inputs.
- Asynchronous promise chains run on a single-threaded event loop, so a
  chain of then-callbacks is embedded as sequential composition.
-/

/- ===================== Shell abstraction (shells/Shell.ts) ===================== -/

/-- Embeds the part of the abstract Shell class (shells/Shell.ts) that
getWorkingDirectory depends on: the abstract absolute-path translator that
concrete shells implement. -/
structure Shell where
  translateAbsolutePath : String → String

/-- Embeds Shell.getWorkingDirectory (shells/Shell.ts).  The Node path module
operations are passed in as parameters isAbsolute and join;
working_directory embeds plugin.settings.working_directory and
vaultAbsolutePath embeds getVaultAbsolutePath(plugin.app). -/
def Shell.getWorkingDirectory (shell : Shell)
    (isAbsolute : String → Bool) (join : String → String → String)
    (working_directory vaultAbsolutePath : String) : String :=
  if working_directory.length = 0 then
    -- No working directory specified, so use the vault directory.
    shell.translateAbsolutePath vaultAbsolutePath
  else if ¬ isAbsolute working_directory then
    -- The working directory is relative: make it refer to the vault's directory.
    shell.translateAbsolutePath (join vaultAbsolutePath working_directory)
  else
    working_directory

/-- Embeds the static ShellCommandExecutor.getWorkingDirectory
(ShellCommandExecutor.ts), which resolves the same three cases but never
consults any shell path translator. -/
def ShellCommandExecutor.getWorkingDirectory
    (isAbsolute : String → Bool) (join : String → String → String)
    (working_directory vaultAbsolutePath : String) : String :=
  if working_directory.length = 0 then
    vaultAbsolutePath
  else if ¬ isAbsolute working_directory then
    join vaultAbsolutePath working_directory
  else
    working_directory

/-- Concrete stand-in for path.isAbsolute of the Node path module (POSIX
flavour), used only to evaluate theorems at concrete inputs. -/
def posixIsAbsolute (s : String) : Bool :=
  match s.toList with
  | [] => false
  | c :: _ => c = '/'

/-- Concrete stand-in for path.join of the Node path module (POSIX flavour,
without dot-segment normalisation, which no claim exercises), used only to
evaluate theorems at concrete inputs. -/
def posixJoin (a b : String) : String := a ++ "/" ++ b

/-- Concrete shell whose path translator remaps host paths into a foreign
filesystem namespace, in the way the Shell class documentation describes for
Windows Subsystem for Linux shells.  Used only to evaluate theorems at
concrete inputs. -/
def wslLikeShell : Shell := { translateAbsolutePath := fun p => "/mnt/c" ++ p }

/- ===================== Prompt fields (PromptField.ts) ===================== -/

/-- Embeds the ParsingResult record of variables/parseVariables.ts: the
per-field outcome of variable parsing. -/
structure ParsingResult where
  succeeded : Bool
  parsed_content : Option String
  error_messages : List String
  count_parsed_variables : Nat
  original_content : String
deriving DecidableEq

/-- Embeds PromptField.applyDefaultValue (PromptField.ts): parses the field's
default_value template and returns the string handed to setValue.  The
parsing_result parameter embeds the awaited result of parseVariables on
default_value; the TypeScript cast of parsed_content to string is embedded
as Option.getD with an irrelevant fallback. -/
def PromptField.applyDefaultValue (default_value : String)
    (parsing_result : ParsingResult) : String :=
  if ¬ parsing_result.succeeded then
    -- Use the unparsed value, so the user can see and fix the variable.
    default_value
  else
    parsing_result.parsed_content.getD ""

/- =========== Buffered output classification (ShellCommandExecutor.ts) =========== -/

/-- What the exit listener installed by ShellCommandExecutor.handleBufferedOutput
(ShellCommandExecutor.ts) forwards to the output-channel dispatch function,
together with which classification branch it took.  classifiedAsError records
whether the listener took its branch for a displayable error (the branch whose
comment reads: The error can be shown). -/
structure BufferedOutcome where
  stdout : String
  stderr : String
  exitCode : Option Int
  classifiedAsError : Bool
deriving DecidableEq

/-- Embeds the body of the exit listener of
ShellCommandExecutor.handleBufferedOutput (ShellCommandExecutor.ts).
ignoreErrorCodes embeds this.t_shell_command.getIgnoreErrorCodes(); exitCode
is none when the process was terminated by a signal (null in Node.js);
stdout and stderr embed the fully buffered stream contents read on exit. -/
def ShellCommandExecutor.handleBufferedExit (ignoreErrorCodes : List Int)
    (exitCode : Option Int) (stdout stderr : String) : BufferedOutcome :=
  match exitCode with
  | none =>
    -- exitCode === null: some error occurred and null cannot be on the ignore list.
    { stdout := stdout, stderr := stderr, exitCode := none, classifiedAsError := true }
  | some code =>
    if 0 < code then
      -- Some error occurred; check if this error should be displayed to the user.
      if ignoreErrorCodes.contains code then
        -- The user has ignored this error: drop stderr and null the exit code.
        { stdout := stdout, stderr := "", exitCode := none, classifiedAsError := false }
      else
        -- The error can be shown.
        { stdout := stdout, stderr := stderr, exitCode := some code, classifiedAsError := true }
    else
      -- Exit code 0. Stderr may still contain content; suppress it iff code 0 is ignored.
      if 0 < stderr.length ∧ ignoreErrorCodes.contains 0 then
        { stdout := stdout, stderr := "", exitCode := some 0, classifiedAsError := false }
      else
        -- Dispatch with exit code 0 (zero is used instead of null: 0 means no error).
        { stdout := stdout, stderr := stderr, exitCode := some 0, classifiedAsError := false }

/- =========== Pre-spawn validation in executeShellCommand (ShellCommandExecutor.ts) =========== -/

/-- Result of the filesystem inspection of the working directory performed by
executeShellCommand: fs.existsSync and fs.lstatSync(...).isDirectory(). -/
inductive FsEntry
  | missing
  | file
  | directory
deriving DecidableEq

/-- Whitespace test for the character class the JavaScript string trim method
and the parseInt builtin treat as whitespace (space, tab, line feed,
vertical tab, form feed, carriage return; the unicode space classes are
irrelevant to the claims). -/
def isJsWhitespace (c : Char) : Bool :=
  decide (c.toNat = 32 ∨ (9 ≤ c.toNat ∧ c.toNat ≤ 13))

/-- Model of the JavaScript string trim method on the character list of a
string: remove leading and trailing whitespace. -/
def jsTrim (cs : List Char) : List Char :=
  ((cs.dropWhile isJsWhitespace).reverse.dropWhile isJsWhitespace).reverse

/-- Embeds ShellCommandExecutor.getErrorMessageForEmptyShellCommand
(ShellCommandExecutor.ts).  nonEmptyPlatformIds embeds
this.t_shell_command.getNonEmptyPlatformIds(); currentPlatformName embeds
getCurrentPlatformName() and getPlatformName the same-named helper of
Common.ts, both passed in as data since they only read the host platform. -/
def ShellCommandExecutor.getErrorMessageForEmptyShellCommand
    (nonEmptyPlatformIds : List String) (currentPlatformName : String)
    (getPlatformName : String → String) : String :=
  if 0 < nonEmptyPlatformIds.length then
    -- The shell command contains versions for other platforms, but not for the current one.
    let version_word := if 1 < nonEmptyPlatformIds.length then "versions" else "a version"
    let other_platform_names :=
      String.intercalate " and " (nonEmptyPlatformIds.map getPlatformName)
    "The shell command does not have a version for " ++ currentPlatformName ++
      ", it only has " ++ version_word ++ " for " ++ other_platform_names ++ "."
  else
    -- The shell command doesn't contain a version for any platform; it's completely empty.
    "The shell command is empty. :("

/-- Observable outcome of one call to ShellCommandExecutor.executeShellCommand,
up to the point where the child process would be spawned: the error notices
raised through plugin.newError, and whether shell.spawnChildProcess was
reached. -/
structure ExecTrace where
  errorMessages : List String
  spawnAttempted : Bool
deriving DecidableEq

/-- Embeds the validation prefix of ShellCommandExecutor.executeShellCommand
(ShellCommandExecutor.ts): the empty-command check on the unwrapped command
content, then the working-directory existence and directory-kind checks;
only the final else branch proceeds to spawning.  unwrapped embeds
shell_command_parsing_result.unwrappedShellCommandContent and wdEntry the
filesystem state of the resolved working directory. -/
def ShellCommandExecutor.executeShellCommand (unwrapped : String)
    (working_directory : String) (wdEntry : FsEntry)
    (nonEmptyPlatformIds : List String) (currentPlatformName : String)
    (getPlatformName : String → String) : ExecTrace :=
  if (jsTrim unwrapped.toList).length = 0 then
    -- The shell command is empty: report and stop.
    { errorMessages := [ShellCommandExecutor.getErrorMessageForEmptyShellCommand
        nonEmptyPlatformIds currentPlatformName getPlatformName],
      spawnAttempted := false }
  else if wdEntry = FsEntry.missing then
    -- Working directory does not exist: prevent execution.
    { errorMessages := ["Working directory does not exist: " ++ working_directory],
      spawnAttempted := false }
  else if wdEntry = FsEntry.file then
    -- Working directory exists but is not a directory: prevent execution.
    { errorMessages := ["Working directory exists but is not a folder: " ++ working_directory],
      spawnAttempted := false }
  else
    -- Working directory is OK: apply PATH augmentation and spawn the process.
    { errorMessages := [], spawnAttempted := true }

/- =========== Preaction pipeline (ShellCommandExecutor.ts) =========== -/

/-- Observable outcome of one call to
ShellCommandExecutor.doPreactionsAndExecuteShellCommand: how many of the
configured preactions had their perform() called, whether
parsing_process.processRest() was invoked, whether executeShellCommand was
reached, and how many times displayErrorMessages raised error notices. -/
structure PreactionRun where
  performedPreactions : Nat
  processRestInvoked : Bool
  executeCalled : Bool
  errorDisplays : Nat
deriving DecidableEq

/-- Embeds ShellCommandExecutor.doPreactionsAndExecuteShellCommand
(ShellCommandExecutor.ts) as a function of the outcomes of its awaited
collaborators.  The promise pipeline starts from Promise.resolve(true); the
confirmation step's executor only calls resolve(true) when the user
confirms, so a declined confirmation leaves the promise forever pending and
nothing downstream runs.  Every preaction step's then-callback takes no
parameter — it discards the boolean resolved by the previous step and
unconditionally calls its preaction's perform() — so the chain's final value
is the last preaction's result (or the initial true when there are none).

Parameters: parsingProcessProvided tells whether a parsing_process argument
was given; phase1Succeeds the result of parsing_process.process() when one
has to be created; confirmExecution the confirm_execution configuration
flag; userConfirms the boolean the ConfirmationModal resolves with;
preactionResults the booleans resolved by each configured preaction's
perform(), in declared order; processRestSucceeds the result of
parsing_process.processRest(). -/
def ShellCommandExecutor.doPreactionsAndExecuteShellCommand
    (parsingProcessProvided phase1Succeeds : Bool)
    (confirmExecution userConfirms : Bool)
    (preactionResults : List Bool) (processRestSucceeds : Bool) : PreactionRun :=
  if ¬ parsingProcessProvided ∧ ¬ phase1Succeeds then
    -- Phase one parsing failed: display errors and cancel execution.
    { performedPreactions := 0, processRestInvoked := false,
      executeCalled := false, errorDisplays := 1 }
  else if confirmExecution ∧ ¬ userConfirms then
    -- The confirmation promise is never resolved: the pipeline stalls silently.
    { performedPreactions := 0, processRestInvoked := false,
      executeCalled := false, errorDisplays := 0 }
  else
    -- Every preaction's perform() runs; the last resolved boolean is can_execute.
    let can_execute := preactionResults.getLastD true
    if can_execute then
      if processRestSucceeds then
        { performedPreactions := preactionResults.length, processRestInvoked := true,
          executeCalled := true, errorDisplays := 0 }
      else
        -- Parsing the rest of the variables failed: display errors.
        { performedPreactions := preactionResults.length, processRestInvoked := true,
          executeCalled := false, errorDisplays := 1 }
    else
      -- Cancel execution silently.
      { performedPreactions := preactionResults.length, processRestInvoked := false,
        executeCalled := false, errorDisplays := 0 }

/- =========== Realtime output handling (ShellCommandExecutor.ts) =========== -/

/-- The two output streams of a child process handled by the executor. -/
inductive OutputStream
  | stdout
  | stderr
deriving DecidableEq

/-- One observable step of the handleNewOutputContent closure defined inside
ShellCommandExecutor.handleRealtimeOutput (ShellCommandExecutor.ts). -/
inductive RealtimeAction
  | pauseStream (stream : OutputStream)
  | readChunk (stream : OutputStream)
  | handleRealtimeChunk (stream : OutputStream)
  | resumeStream (stream : OutputStream)
deriving DecidableEq

/-- Embeds the body of handleNewOutputContent
(ShellCommandExecutor.handleRealtimeOutput): pause both stdout and stderr,
read the chunk from the readable stream, await the output channel's
handleRealtime, then resume both streams.  The awaits make the body a single
sequential task on the event loop, so the body is its ordered action list. -/
def handleNewOutputContent (outputStreamName : OutputStream) : List RealtimeAction :=
  [RealtimeAction.pauseStream OutputStream.stdout,
   RealtimeAction.pauseStream OutputStream.stderr,
   RealtimeAction.readChunk outputStreamName,
   RealtimeAction.handleRealtimeChunk outputStreamName,
   RealtimeAction.resumeStream OutputStream.stdout,
   RealtimeAction.resumeStream OutputStream.stderr]

/-- Pause flags of the two child-process streams. -/
structure StreamPauseState where
  stdoutPaused : Bool
  stderrPaused : Bool
deriving DecidableEq

/-- Effect of one realtime action on the streams' pause flags (reading and
dispatching a chunk do not change them). -/
def applyRealtimeAction (s : StreamPauseState) : RealtimeAction → StreamPauseState
  | RealtimeAction.pauseStream OutputStream.stdout => { s with stdoutPaused := true }
  | RealtimeAction.pauseStream OutputStream.stderr => { s with stderrPaused := true }
  | RealtimeAction.resumeStream OutputStream.stdout => { s with stdoutPaused := false }
  | RealtimeAction.resumeStream OutputStream.stderr => { s with stderrPaused := false }
  | RealtimeAction.readChunk _ => s
  | RealtimeAction.handleRealtimeChunk _ => s

/-- States in which the successive actions of a list execute, starting from
an initial pause state: element i is the state just before action i runs. -/
def statesBefore (s : StreamPauseState) : List RealtimeAction → List StreamPauseState
  | [] => []
  | a :: rest => s :: statesBefore (applyRealtimeAction s a) rest

/-- Final pause state after running a list of realtime actions. -/
def stateAfter (s : StreamPauseState) (actions : List RealtimeAction) : StreamPauseState :=
  actions.foldl applyRealtimeAction s

/-- Embeds the exit listener of ShellCommandExecutor.handleRealtimeOutput
(ShellCommandExecutor.ts): iterate the streams in order, and call a stream's
output channel's endRealtime only when the channel's handler code is not yet
in alreadyCalledChannelCodes; afterwards push the code.  The argument list
carries the handler code configured for each present stream, in iteration
order; the result is the sequence of handler codes whose endRealtime gets
called.  alreadyCalled embeds the alreadyCalledChannelCodes accumulator. -/
def endRealtimeCalls (alreadyCalled : List String) : List String → List String
  | [] => []
  | outputChannelCode :: rest =>
    if alreadyCalled.contains outputChannelCode then
      -- Already called; skip to solve stdout and stderr sharing one channel.
      endRealtimeCalls alreadyCalled rest
    else
      outputChannelCode :: endRealtimeCalls (alreadyCalled ++ [outputChannelCode]) rest

/- =========== Command-palette preparsed cache (main.ts, SC_Plugin) =========== -/

/-- Association-list update used to embed assignments into the
cached_parsing_processes object keyed by shell-command id. -/
def setCacheEntry {π : Type} (cache : List (String × Option π))
    (key : String) (value : Option π) : List (String × Option π) :=
  (key, value) :: cache.filter (fun entry => entry.1 ≠ key)

/-- Branch taken by the checkCallback closure of SC_Plugin.registerShellCommand. -/
inductive PaletteOutcome
  | hiddenFromPalette
  | shownInPalette
  | executed
deriving DecidableEq

/-- Embeds the checkCallback closure registered by
SC_Plugin.registerShellCommand (main.ts).  The type parameter stands for
ShellCommandParsingProcess values; entries mapped to none embed the explicit
undefined assignment made when preparsing fails or is disabled.  Returns the
plugin's cached_parsing_processes object after the call together with the
branch taken.  canShowInPalette, previewEnabled and previewParseSucceeds
embed t_shell_command.canShowInCommandPalette(), the
preview_variables_in_command_palette setting and parsing_process.process()
during preview; newProcess the freshly created parsing process. -/
def SC_Plugin.checkCallback {π : Type} (isOpeningCommandPalette : Bool)
    (canShowInPalette previewEnabled previewParseSucceeds : Bool)
    (commandId : String) (newProcess : π)
    (cache : List (String × Option π)) :
    List (String × Option π) × PaletteOutcome :=
  if isOpeningCommandPalette then
    if ¬ canShowInPalette then
      -- Cancel preview and deny showing in command palette.
      (cache, PaletteOutcome.hiddenFromPalette)
    else if previewEnabled ∧ previewParseSucceeds then
      -- Store the preparsed process for use if this shell command gets executed.
      (setCacheEntry cache commandId (some newProcess), PaletteOutcome.shownInPalette)
    else
      -- Parsing failed or was disabled; remember that with an undefined entry.
      (setCacheEntry cache commandId none, PaletteOutcome.shownInPalette)
  else
    -- The user has instructed to execute the command: run the executor with a
    -- possibly cached process, then delete the whole array of preparsed commands.
    ([], PaletteOutcome.executed)

/- =========== New shell-command ID generation (main.ts, SC_Plugin) =========== -/

/-- Numeric value of a decimal digit character (code point minus 48). -/
def digitVal (c : Char) : Nat := c.toNat - 48

/-- Decimal-digit test on a character, by code point (48 to 57). -/
def isDecimalDigit (c : Char) : Bool := decide (48 ≤ c.toNat ∧ c.toNat ≤ 57)

/-- Drops the leading whitespace of a character list, as the JavaScript
parseInt builtin does before reading a number. -/
def skipLeadingWhitespace : List Char → List Char
  | [] => []
  | c :: rest => if isJsWhitespace c then skipLeadingWhitespace rest else c :: rest

/-- Value of the leading run of decimal digits of a character list,
accumulated left to right; none when the run is empty (NaN). -/
def parseLeadingDigits : List Char → Option Nat → Option Nat
  | [], acc => acc
  | c :: rest, acc =>
    if isDecimalDigit c then
      parseLeadingDigits rest (some (acc.getD 0 * 10 + digitVal c))
    else acc

/-- Model of the JavaScript parseInt builtin as generateNewShellCommandID
applies it to property names: skip leading whitespace, accept an optional
sign, read the leading run of decimal digits and ignore the rest; none
embeds NaN.  (The automatic hexadecimal mode for a 0x prefix is not
modelled; no claim exercises it.) -/
def parseIntJSChars : List Char → Option Int
  | [] => none
  | c :: rest =>
    if c = '-' then (parseLeadingDigits rest none).map (fun n => -(n : Int))
    else if c = '+' then (parseLeadingDigits rest none).map (fun n => (n : Int))
    else (parseLeadingDigits (c :: rest) none).map (fun n => (n : Int))

/-- Model of the JavaScript parseInt builtin on a string (see
parseIntJSChars for the character-level grammar). -/
def parseIntJS (s : String) : Option Int :=
  parseIntJSChars (skipLeadingWhitespace s.toList)

/-- Character of a decimal digit (code point 48 plus the digit). -/
def digitChar (d : Nat) : Char := Char.ofNat (48 + d)

/-- Big-endian decimal digits of a natural number, computed with explicit
fuel so that the definition is structural; the fuel never runs out when it
starts at least at the number itself (see natToDigitList). -/
def natToDigitListAux : Nat → Nat → List Char
  | 0, _ => []
  | fuel + 1, n =>
    if n < 10 then [digitChar n]
    else natToDigitListAux fuel (n / 10) ++ [digitChar (n % 10)]

/-- Big-endian decimal digits of a natural number. -/
def natToDigitList (n : Nat) : List Char := natToDigitListAux (n + 1) n

/-- Model of the JavaScript String() conversion applied to the integer
new_id by generateNewShellCommandID. -/
def intToStringJS (i : Int) : String :=
  if i < 0 then String.mk ('-' :: natToDigitList i.natAbs)
  else String.mk (natToDigitList i.toNat)

/-- Embeds SC_Plugin.generateNewShellCommandID (main.ts): starting from 0,
scan the own property names of the shell-command container; whenever
parseInt of a name is at least the running new_id, replace new_id by that
value plus one (a NaN comparison is false and leaves new_id unchanged);
finally render new_id with String().  existing_ids embeds
Object.getOwnPropertyNames(this.getTShellCommands()). -/
def SC_Plugin.generateNewShellCommandID (existing_ids : List String) : String :=
  intToStringJS (existing_ids.foldl
    (fun new_id existing_key =>
      match parseIntJS existing_key with
      | none => new_id
      | some existing_id => if new_id ≤ existing_id then existing_id + 1 else new_id)
    0)

/-- Decimal value of a digit string, read left to right. -/
def decimalValue (cs : List Char) : Nat :=
  cs.foldl (fun a c => a * 10 + digitVal c) 0

/- ===================== Helper lemmas ===================== -/

theorem endRealtimeCalls_count (codes : List String) :
    ∀ (alreadyCalled : List String) (c : String),
    (endRealtimeCalls alreadyCalled codes).count c =
      if c ∈ alreadyCalled then 0 else if c ∈ codes then 1 else 0 := by
  induction codes with
  | nil => intro a c; simp [endRealtimeCalls]
  | cons code rest ih =>
    intro a c
    rw [endRealtimeCalls]
    by_cases hmem : a.contains code = true
    · rw [if_pos hmem, ih]
      have hcode : code ∈ a := by simpa using hmem
      by_cases hc : c ∈ a
      · simp [hc]
      · have hne : c ≠ code := fun h => hc (h ▸ hcode)
        simp [hc, hne]
    · rw [if_neg hmem]
      have hcode : code ∉ a := by simpa using hmem
      by_cases hc : c = code
      · subst hc
        rw [List.count_cons_self, ih]
        simp [hcode]
      · rw [List.count_cons_of_ne hc, ih]
        have : (c ∈ a ++ [code]) ↔ c ∈ a := by simp [hc]
        rw [if_congr this rfl rfl]
        by_cases hca : c ∈ a
        · simp [hca]
        · simp [hca, hc]

theorem parseLeadingDigits_digits (cs : List Char) :
    ∀ a : Nat, (∀ c ∈ cs, isDecimalDigit c = true) →
    parseLeadingDigits cs (some a) =
      some (cs.foldl (fun x c => x * 10 + digitVal c) a) := by
  induction cs with
  | nil => intro a _; simp [parseLeadingDigits]
  | cons c rest ih =>
    intro a h
    rw [parseLeadingDigits, if_pos (h c (List.mem_cons_self c rest))]
    simp only [Option.getD_some, List.foldl_cons]
    exact ih (a * 10 + digitVal c) (fun d hd => h d (List.mem_cons_of_mem c hd))

theorem parseIntJS_digits (k : String) (hne : k.toList ≠ [])
    (hdig : ∀ c ∈ k.toList, isDecimalDigit c = true) :
    parseIntJS k = some (decimalValue k.toList) := by
  rw [parseIntJS]
  rcases hlist : k.toList with _ | ⟨c, rest⟩
  · exact absurd hlist hne
  · have hc : isDecimalDigit c = true := by
      rw [hlist] at hdig; exact hdig c (List.mem_cons_self c rest)
    have hcrange : 48 ≤ c.toNat ∧ c.toNat ≤ 57 := by
      simpa [isDecimalDigit] using hc
    have hskip : skipLeadingWhitespace (c :: rest) = c :: rest := by
      rw [skipLeadingWhitespace, if_neg]
      simp only [isJsWhitespace, decide_eq_true_eq]
      omega
    rw [hskip, parseIntJSChars]
    have hminus : c ≠ '-' := by
      intro h; rw [h] at hcrange
      simp at hcrange
    have hplus : c ≠ '+' := by
      intro h; rw [h] at hcrange
      simp at hcrange
    rw [if_neg hminus, if_neg hplus, parseLeadingDigits, if_pos hc]
    have hrest : ∀ d ∈ rest, isDecimalDigit d = true := by
      intro d hd; rw [hlist] at hdig; exact hdig d (List.mem_cons_of_mem c hd)
    rw [parseLeadingDigits_digits rest _ hrest]
    simp [decimalValue]

theorem digitVal_digitChar (d : Nat) (hd : d < 10) : digitVal (digitChar d) = d := by
  interval_cases d <;> decide

theorem decimalValue_append_digit (ds : List Char) (c : Char) :
    decimalValue (ds ++ [c]) = decimalValue ds * 10 + digitVal c := by
  simp [decimalValue, List.foldl_append]

theorem decimalValue_natToDigitListAux (fuel : Nat) :
    ∀ n : Nat, n ≤ fuel → decimalValue (natToDigitListAux (fuel + 1) n) = n := by
  induction fuel with
  | zero =>
    intro n hn
    have : n = 0 := Nat.le_zero.mp hn
    subst this
    decide
  | succ fuel ih =>
    intro n hn
    rw [natToDigitListAux]
    by_cases h10 : n < 10
    · rw [if_pos h10]
      show decimalValue [digitChar n] = n
      simp [decimalValue, digitVal_digitChar n h10]
    · rw [if_neg h10]
      have hdiv : n / 10 ≤ fuel := by
        have : n / 10 < n := Nat.div_lt_self (by omega) (by omega)
        omega
      rw [decimalValue_append_digit, ih (n / 10) hdiv,
        digitVal_digitChar (n % 10) (Nat.mod_lt n (by omega))]
      omega

theorem decimalValue_natToDigitList (n : Nat) :
    decimalValue (natToDigitList n) = n :=
  decimalValue_natToDigitListAux n n (Nat.le_refl n)

theorem foldl_scStep_eq_foldl_maxAdd (l : List Int) :
    ∀ i : Int, l.foldl (fun new_id v => if new_id ≤ v then v + 1 else new_id) i =
      l.foldl (fun x v => max x (v + 1)) i := by
  induction l with
  | nil => intro i; rfl
  | cons v rest ih =>
    intro i
    simp only [List.foldl_cons]
    rw [show (if i ≤ v then v + 1 else i) = max i (v + 1) by split_ifs <;> omega]
    exact ih (max i (v + 1))

theorem foldl_maxAdd_shift (l : List Int) :
    ∀ a : Int, l.foldl (fun x v => max x (v + 1)) (a + 1) = l.foldl max a + 1 := by
  induction l with
  | nil => intro a; rfl
  | cons v rest ih =>
    intro a
    simp only [List.foldl_cons]
    rw [show max (a + 1) (v + 1) = max a v + 1 from max_add_add_right a v 1]
    exact ih (max a v)

theorem foldl_max_upper (l : List Int) :
    ∀ a : Int, a ≤ l.foldl max a ∧ ∀ v ∈ l, v ≤ l.foldl max a := by
  induction l with
  | nil => intro a; exact ⟨le_refl a, by simp⟩
  | cons v rest ih =>
    intro a
    simp only [List.foldl_cons]
    constructor
    · exact le_trans (le_max_left a v) (ih (max a v)).1
    · intro w hw
      rcases List.mem_cons.mp hw with h | h
      · rw [h]
        exact le_trans (le_max_right a v) (ih (max a v)).1
      · exact (ih (max a v)).2 w h

theorem foldl_max_attained (l : List Int) :
    ∀ a : Int, l.foldl max a = a ∨ l.foldl max a ∈ l := by
  induction l with
  | nil => intro a; exact Or.inl rfl
  | cons v rest ih =>
    intro a
    simp only [List.foldl_cons]
    rcases ih (max a v) with h | h
    · rcases max_choice a v with hm | hm
      · exact Or.inl (h.trans hm)
      · exact Or.inr (List.mem_cons.mpr (Or.inl (h.trans hm)))
    · exact Or.inr (List.mem_cons.mpr (Or.inr h))

theorem generateID_fold_as_values (existing_ids : List String)
    (hdig : ∀ k ∈ existing_ids,
      k.toList ≠ [] ∧ ∀ c ∈ k.toList, isDecimalDigit c = true) :
    ∀ i : Int,
    existing_ids.foldl
      (fun new_id existing_key =>
        match parseIntJS existing_key with
        | none => new_id
        | some existing_id => if new_id ≤ existing_id then existing_id + 1 else new_id)
      i =
    (existing_ids.map (fun k => (decimalValue k.toList : Int))).foldl
      (fun new_id v => if new_id ≤ v then v + 1 else new_id) i := by
  induction existing_ids with
  | nil => intro i; rfl
  | cons k rest ih =>
    intro i
    have hk := hdig k (List.mem_cons_self k rest)
    have hrest : ∀ k' ∈ rest,
        k'.toList ≠ [] ∧ ∀ c ∈ k'.toList, isDecimalDigit c = true :=
      fun k' hk' => hdig k' (List.mem_cons_of_mem k hk')
    simp only [List.map_cons, List.foldl_cons,
      parseIntJS_digits k hk.1 hk.2]
    exact ih hrest _

/- ===================== Claim theorems ===================== -/

/-- C10: Prompt-field default-value fallback: when parsing of the field's
default_value template fails, the raw unparsed default_value string is set
into the form field; when parsing succeeds, the parsed content is set — so
the field is always populated with either the parsed or the original
template text, never an error or a forced empty value. -/
theorem prompt_field_default_value_fallback
    (default_value : String) (parsing_result : ParsingResult) :
    (parsing_result.succeeded = false →
      PromptField.applyDefaultValue default_value parsing_result = default_value)
    ∧ (∀ s : String, parsing_result.succeeded = true →
      parsing_result.parsed_content = some s →
      PromptField.applyDefaultValue default_value parsing_result = s)
    ∧ ((parsing_result.succeeded = false ∨ ∃ s, parsing_result.parsed_content = some s) →
      PromptField.applyDefaultValue default_value parsing_result = default_value
      ∨ ∃ s, parsing_result.parsed_content = some s
        ∧ PromptField.applyDefaultValue default_value parsing_result = s) := by
  refine ⟨?_, ?_, ?_⟩
  · intro h
    simp [PromptField.applyDefaultValue, h]
  · intro s hs hp
    simp [PromptField.applyDefaultValue, hs, hp]
  · intro h
    rcases h with h | ⟨s, hs⟩
    · exact Or.inl (by simp [PromptField.applyDefaultValue, h])
    · by_cases hsucc : parsing_result.succeeded = true
      · exact Or.inr ⟨s, hs, by simp [PromptField.applyDefaultValue, hsucc, hs]⟩
      · exact Or.inl (by simp [PromptField.applyDefaultValue,
          Bool.eq_false_iff.mpr hsucc])

/-- C10 witness: with a failed parsing result the raw template text is set,
and with a successful one the parsed content is set. -/
theorem prompt_field_default_value_fallback_witness :
    PromptField.applyDefaultValue "\x7b\x7bclipboard\x7d\x7d"
      { succeeded := false, parsed_content := none, error_messages := ["Unknown variable"],
        count_parsed_variables := 0, original_content := "\x7b\x7bclipboard\x7d\x7d" } = "\x7b\x7bclipboard\x7d\x7d"
    ∧ PromptField.applyDefaultValue "\x7b\x7bclipboard\x7d\x7d"
      { succeeded := true, parsed_content := some "pasted", error_messages := [],
        count_parsed_variables := 1, original_content := "\x7b\x7bclipboard\x7d\x7d" } = "pasted" :=
  ⟨(prompt_field_default_value_fallback "\x7b\x7bclipboard\x7d\x7d" _).1 rfl,
   (prompt_field_default_value_fallback "\x7b\x7bclipboard\x7d\x7d" _).2.1 "pasted" rfl rfl⟩

/-- C8: Preparsed-cache clearing invariant: whenever the checkCallback of a
registered shell command runs in its execution phase (the command palette is
not merely being opened), the plugin-wide cache of preparsed parsing
processes is reset to the empty object afterwards — for every prior cache
content and regardless of whether a cached process existed or parsing or
execution succeeded. -/
theorem preparsed_cache_cleared_after_execution {π : Type}
    (canShowInPalette previewEnabled previewParseSucceeds : Bool)
    (commandId : String) (newProcess : π)
    (cache : List (String × Option π)) :
    (SC_Plugin.checkCallback false canShowInPalette previewEnabled previewParseSucceeds
        commandId newProcess cache).1 = []
    ∧ (SC_Plugin.checkCallback false canShowInPalette previewEnabled previewParseSucceeds
        commandId newProcess cache).2 = PaletteOutcome.executed := by
  exact ⟨rfl, rfl⟩

/-- C7: Realtime chunk dispatch mutual exclusion: in the chunk handler of
realtime output mode, both streams are paused when the chunk is read
(action index 2) and when it is handed to the output channel (action index
3); the only actions after the channel's handling completes are the two
resume actions, and after the whole body both streams are resumed — so no
overlapping dispatch can reorder chunk delivery between the two streams. -/
theorem realtime_chunk_pause_resume (s : StreamPauseState) (stream : OutputStream) :
    (handleNewOutputContent stream).get? 2 = some (RealtimeAction.readChunk stream)
    ∧ (handleNewOutputContent stream).get? 3 =
        some (RealtimeAction.handleRealtimeChunk stream)
    ∧ (statesBefore s (handleNewOutputContent stream)).get? 2 =
        some { stdoutPaused := true, stderrPaused := true }
    ∧ (statesBefore s (handleNewOutputContent stream)).get? 3 =
        some { stdoutPaused := true, stderrPaused := true }
    ∧ (handleNewOutputContent stream).drop 4 =
        [RealtimeAction.resumeStream OutputStream.stdout,
         RealtimeAction.resumeStream OutputStream.stderr]
    ∧ stateAfter s (handleNewOutputContent stream) =
        { stdoutPaused := false, stderrPaused := false } := by
  obtain ⟨a, b⟩ := s
  cases stream <;> cases a <;> cases b <;> decide

/-- C2: Buffered output classification: a null exit code is classified as an
error with stderr passed through; a positive exit code is an error with
stderr passed through unless it is on the ignore-list, in which case the
outcome is success and stderr is dropped before dispatch; exit code 0 with
stderr content is success with stderr passed through, unless 0 is ignored,
in which case stderr is dropped as well. -/
theorem buffered_output_classification
    (ignoreErrorCodes : List Int) (stdout stderr : String) :
    (ShellCommandExecutor.handleBufferedExit ignoreErrorCodes none stdout stderr =
      { stdout := stdout, stderr := stderr, exitCode := none, classifiedAsError := true })
    ∧ (∀ code : Int, 0 < code → ignoreErrorCodes.contains code = true →
      ShellCommandExecutor.handleBufferedExit ignoreErrorCodes (some code) stdout stderr =
        { stdout := stdout, stderr := "", exitCode := none, classifiedAsError := false })
    ∧ (∀ code : Int, 0 < code → ignoreErrorCodes.contains code = false →
      ShellCommandExecutor.handleBufferedExit ignoreErrorCodes (some code) stdout stderr =
        { stdout := stdout, stderr := stderr, exitCode := some code,
          classifiedAsError := true })
    ∧ (0 < stderr.length → ignoreErrorCodes.contains 0 = true →
      ShellCommandExecutor.handleBufferedExit ignoreErrorCodes (some 0) stdout stderr =
        { stdout := stdout, stderr := "", exitCode := some 0, classifiedAsError := false })
    ∧ (ignoreErrorCodes.contains 0 = false →
      ShellCommandExecutor.handleBufferedExit ignoreErrorCodes (some 0) stdout stderr =
        { stdout := stdout, stderr := stderr, exitCode := some 0,
          classifiedAsError := false }) := by
  refine ⟨rfl, ?_, ?_, ?_, ?_⟩
  · intro code hpos hmem
    have hmem' : code ∈ ignoreErrorCodes := by simpa using hmem
    simp [ShellCommandExecutor.handleBufferedExit, hpos, hmem']
  · intro code hpos hmem
    have hmem' : code ∉ ignoreErrorCodes := by simpa using hmem
    simp [ShellCommandExecutor.handleBufferedExit, hpos, hmem']
  · intro hlen hmem
    have hmem' : (0 : Int) ∈ ignoreErrorCodes := by simpa using hmem
    simp [ShellCommandExecutor.handleBufferedExit, hlen, hmem']
  · intro hmem
    have hmem' : (0 : Int) ∉ ignoreErrorCodes := by simpa using hmem
    simp [ShellCommandExecutor.handleBufferedExit, hmem']

/-- C2 witness: exit code 1 with 1 on the ignore-list is dispatched as
success with stderr emptied; exit code 1 with an empty ignore-list is
dispatched as an error with stderr intact; exit code 0 with stderr content
and an empty ignore-list passes stderr through as success. -/
theorem buffered_output_classification_witness :
    ShellCommandExecutor.handleBufferedExit [1] (some 1) "out" "oops" =
      { stdout := "out", stderr := "", exitCode := none, classifiedAsError := false }
    ∧ ShellCommandExecutor.handleBufferedExit [] (some 1) "out" "oops" =
      { stdout := "out", stderr := "oops", exitCode := some 1, classifiedAsError := true }
    ∧ ShellCommandExecutor.handleBufferedExit [] (some 0) "out" "oops" =
      { stdout := "out", stderr := "oops", exitCode := some 0,
        classifiedAsError := false } :=
  ⟨(buffered_output_classification [1] "out" "oops").2.1 1 (by decide) (by decide),
   (buffered_output_classification [] "out" "oops").2.2.1 1 (by decide) (by decide),
   (buffered_output_classification [] "out" "oops").2.2.2.2 (by decide)⟩

/-- C6: Realtime finalization uniqueness: on process exit, a handler code
configured for at least one stream has its endRealtime call made exactly
once, a code configured for no stream is never called, and in particular
when stdout and stderr are configured to the same output handler code that
handler's endRealtime is called once, not twice. -/
theorem endRealtime_called_exactly_once (streamHandlerCodes : List String) :
    (∀ c : String, c ∈ streamHandlerCodes →
      (endRealtimeCalls [] streamHandlerCodes).count c = 1)
    ∧ (∀ c : String, c ∉ streamHandlerCodes →
      (endRealtimeCalls [] streamHandlerCodes).count c = 0)
    ∧ (∀ c : String, endRealtimeCalls [] [c, c] = [c]) := by
  refine ⟨?_, ?_, ?_⟩
  · intro c hc
    rw [endRealtimeCalls_count]
    simp [hc]
  · intro c hc
    rw [endRealtimeCalls_count]
    simp [hc]
  · intro c
    rw [endRealtimeCalls, if_neg (by simp), endRealtimeCalls,
      if_pos (by simp), endRealtimeCalls]

/-- C6 witness: with stdout and stderr both configured to the notification
handler code, endRealtime is dispatched exactly once for it. -/
theorem endRealtime_called_exactly_once_witness :
    (endRealtimeCalls [] ["notification", "notification"]).count "notification" = 1
    ∧ endRealtimeCalls [] ["notification", "notification"] = ["notification"] :=
  ⟨(endRealtime_called_exactly_once ["notification", "notification"]).1
      "notification" (by decide),
   (endRealtime_called_exactly_once ["notification", "notification"]).2.2 "notification"⟩

/-- C4: Working-directory structural validation: whenever the resolved
working directory is missing from the filesystem or is not a directory, the
spawn step is never reached and an error notice is raised; when the command
content itself is non-empty, that notice is the descriptive working
directory message naming the offending path. -/
theorem working_directory_validation_blocks_spawn
    (unwrapped working_directory : String) (wdEntry : FsEntry)
    (nonEmptyPlatformIds : List String) (currentPlatformName : String)
    (getPlatformName : String → String)
    (hwd : wdEntry ≠ FsEntry.directory) :
    (ShellCommandExecutor.executeShellCommand unwrapped working_directory wdEntry
      nonEmptyPlatformIds currentPlatformName getPlatformName).spawnAttempted = false
    ∧ (ShellCommandExecutor.executeShellCommand unwrapped working_directory wdEntry
      nonEmptyPlatformIds currentPlatformName getPlatformName).errorMessages ≠ []
    ∧ ((jsTrim unwrapped.toList).length ≠ 0 →
      (ShellCommandExecutor.executeShellCommand unwrapped working_directory wdEntry
        nonEmptyPlatformIds currentPlatformName getPlatformName).errorMessages =
        [if wdEntry = FsEntry.missing then
          "Working directory does not exist: " ++ working_directory
        else
          "Working directory exists but is not a folder: " ++ working_directory]) := by
  unfold ShellCommandExecutor.executeShellCommand
  by_cases htrim : (jsTrim unwrapped.toList).length = 0
  · rw [if_pos htrim]
    exact ⟨rfl, by simp, fun h => absurd htrim h⟩
  · rw [if_neg htrim]
    cases wdEntry with
    | missing =>
      rw [if_pos rfl]
      exact ⟨rfl, by simp, fun _ => by rw [if_pos rfl]⟩
    | file =>
      rw [if_neg (by decide), if_pos rfl]
      exact ⟨rfl, by simp, fun _ => by rw [if_neg (by decide)]⟩
    | directory => exact absurd rfl hwd

/-- C4 witness: a non-empty command with a missing working directory and one
with a file in place of the working directory both fail before spawn with
the descriptive message. -/
theorem working_directory_validation_blocks_spawn_witness :
    (ShellCommandExecutor.executeShellCommand "echo hi" "/gone" FsEntry.missing
      [] "Windows" id).spawnAttempted = false
    ∧ (ShellCommandExecutor.executeShellCommand "echo hi" "/gone" FsEntry.missing
      [] "Windows" id).errorMessages = ["Working directory does not exist: /gone"]
    ∧ (ShellCommandExecutor.executeShellCommand "echo hi" "/notes.md" FsEntry.file
      [] "Windows" id).errorMessages =
        ["Working directory exists but is not a folder: /notes.md"] := by
  have h1 := working_directory_validation_blocks_spawn "echo hi" "/gone" FsEntry.missing
    [] "Windows" id (by decide)
  have h2 := working_directory_validation_blocks_spawn "echo hi" "/notes.md" FsEntry.file
    [] "Windows" id (by decide)
  refine ⟨h1.1, ?_, ?_⟩
  · rw [h1.2.2 (by decide)]
    decide
  · rw [h2.2.2 (by decide)]
    decide

/-- C5: Empty-command validation: when the resolved unwrapped command
content is empty after stripping whitespace, execution fails before
spawning with the message produced by getErrorMessageForEmptyShellCommand,
and that message distinguishes a completely empty command from a command
defined only for other operating systems, naming the other platforms in the
latter case. -/
theorem empty_command_validation
    (unwrapped working_directory : String) (wdEntry : FsEntry)
    (nonEmptyPlatformIds : List String) (currentPlatformName : String)
    (getPlatformName : String → String)
    (htrim : (jsTrim unwrapped.toList).length = 0) :
    (ShellCommandExecutor.executeShellCommand unwrapped working_directory wdEntry
      nonEmptyPlatformIds currentPlatformName getPlatformName).spawnAttempted = false
    ∧ (ShellCommandExecutor.executeShellCommand unwrapped working_directory wdEntry
      nonEmptyPlatformIds currentPlatformName getPlatformName).errorMessages =
      [ShellCommandExecutor.getErrorMessageForEmptyShellCommand
        nonEmptyPlatformIds currentPlatformName getPlatformName]
    ∧ (nonEmptyPlatformIds = [] →
      ShellCommandExecutor.getErrorMessageForEmptyShellCommand
        nonEmptyPlatformIds currentPlatformName getPlatformName =
        "The shell command is empty. :(")
    ∧ (nonEmptyPlatformIds ≠ [] →
      ShellCommandExecutor.getErrorMessageForEmptyShellCommand
        nonEmptyPlatformIds currentPlatformName getPlatformName =
        "The shell command does not have a version for " ++ currentPlatformName ++
          ", it only has " ++
          (if 1 < nonEmptyPlatformIds.length then "versions" else "a version") ++
          " for " ++
          String.intercalate " and " (nonEmptyPlatformIds.map getPlatformName) ++ ".") := by
  refine ⟨?_, ?_, ?_, ?_⟩
  · unfold ShellCommandExecutor.executeShellCommand
    rw [if_pos htrim]
  · unfold ShellCommandExecutor.executeShellCommand
    rw [if_pos htrim]
  · intro h
    unfold ShellCommandExecutor.getErrorMessageForEmptyShellCommand
    rw [if_neg (by simp [h])]
  · intro h
    unfold ShellCommandExecutor.getErrorMessageForEmptyShellCommand
    rw [if_pos (by simpa using List.length_pos.mpr h)]

/-- C5 witness: a whitespace-only command with versions configured only for
two other platforms fails before spawn and the message names those
platforms; with no versions at all, the completely-empty message shows. -/
theorem empty_command_validation_witness :
    (ShellCommandExecutor.executeShellCommand "  " "/vault" FsEntry.directory
      ["linux", "mac"] "Windows" (fun p => if p = "linux" then "Linux" else "Macintosh")
      ).spawnAttempted = false
    ∧ (ShellCommandExecutor.executeShellCommand "  " "/vault" FsEntry.directory
      ["linux", "mac"] "Windows" (fun p => if p = "linux" then "Linux" else "Macintosh")
      ).errorMessages =
      ["The shell command does not have a version for Windows, it only has versions for Linux and Macintosh."]
    ∧ ShellCommandExecutor.getErrorMessageForEmptyShellCommand [] "Windows" id =
      "The shell command is empty. :(" := by
  have h := empty_command_validation "  " "/vault" FsEntry.directory
    ["linux", "mac"] "Windows" (fun p => if p = "linux" then "Linux" else "Macintosh")
    (by decide)
  have h0 := empty_command_validation "  " "/vault" FsEntry.directory
    [] "Windows" id (by decide)
  refine ⟨h.1, ?_, h0.2.2.1 rfl⟩
  rw [h.2.1, h.2.2.2 (by decide)]
  decide

/-- C3 counterexample: with no confirmation configured and two preactions
resolving false then true, the first preaction resolves to do-not-proceed,
yet the second preaction still runs (both perform calls happen), processRest
is invoked and the execution proceeds to spawning — because every preaction
then-callback discards the boolean resolved by the previous step. -/
theorem preaction_short_circuit_counterexample :
    [false, true].contains false = true
    ∧ (ShellCommandExecutor.doPreactionsAndExecuteShellCommand
        true true false true [false, true] true).performedPreactions = 2
    ∧ (ShellCommandExecutor.doPreactionsAndExecuteShellCommand
        true true false true [false, true] true).processRestInvoked = true
    ∧ (ShellCommandExecutor.doPreactionsAndExecuteShellCommand
        true true false true [false, true] true).executeCalled = true := by
  decide

/-- C3 amended: when a confirmation is configured and the user declines it,
no preaction runs, processRest is never invoked, no process is spawned and
no error notice is displayed — the execution is abandoned silently.  A
preaction resolving to do-not-proceed does NOT stop subsequent preactions
from running: all configured preactions always run once the confirmation
step passes, and execution is abandoned silently (processRest never
invoked, nothing spawned, no error notice) exactly when the LAST preaction
(or the chain's initial true when there are none) resolves false. -/
theorem preaction_pipeline_amended
    (parsingProcessProvided phase1Succeeds confirmExecution userConfirms : Bool)
    (preactionResults : List Bool) (processRestSucceeds : Bool)
    (hphase : parsingProcessProvided = true ∨ phase1Succeeds = true) :
    (confirmExecution = true → userConfirms = false →
      ShellCommandExecutor.doPreactionsAndExecuteShellCommand
        parsingProcessProvided phase1Succeeds confirmExecution userConfirms
        preactionResults processRestSucceeds =
      { performedPreactions := 0, processRestInvoked := false,
        executeCalled := false, errorDisplays := 0 })
    ∧ ((confirmExecution = true → userConfirms = true) →
      preactionResults.getLastD true = false →
      ShellCommandExecutor.doPreactionsAndExecuteShellCommand
        parsingProcessProvided phase1Succeeds confirmExecution userConfirms
        preactionResults processRestSucceeds =
      { performedPreactions := preactionResults.length, processRestInvoked := false,
        executeCalled := false, errorDisplays := 0 })
    ∧ ((confirmExecution = true → userConfirms = true) →
      preactionResults.getLastD true = true →
      (ShellCommandExecutor.doPreactionsAndExecuteShellCommand
        parsingProcessProvided phase1Succeeds confirmExecution userConfirms
        preactionResults processRestSucceeds).processRestInvoked = true
      ∧ (ShellCommandExecutor.doPreactionsAndExecuteShellCommand
        parsingProcessProvided phase1Succeeds confirmExecution userConfirms
        preactionResults processRestSucceeds).performedPreactions =
          preactionResults.length) := by
  have hnophase1fail : ¬ (¬ parsingProcessProvided = true ∧ ¬ phase1Succeeds = true) := by
    rcases hphase with h | h <;> simp [h]
  refine ⟨?_, ?_, ?_⟩
  · intro hconf huser
    unfold ShellCommandExecutor.doPreactionsAndExecuteShellCommand
    rw [if_neg hnophase1fail, if_pos (by simp [hconf, huser])]
  · intro hconf hlast
    unfold ShellCommandExecutor.doPreactionsAndExecuteShellCommand
    rw [if_neg hnophase1fail, if_neg (by
      intro hc
      rw [hconf hc.1] at hc
      exact hc.2 rfl)]
    rw [List.getLastD_eq_getLast?] at hlast
    simp [hlast]
  · intro hconf hlast
    unfold ShellCommandExecutor.doPreactionsAndExecuteShellCommand
    rw [if_neg hnophase1fail, if_neg (by
      intro hc
      rw [hconf hc.1] at hc
      exact hc.2 rfl)]
    rw [List.getLastD_eq_getLast?] at hlast
    cases processRestSucceeds <;> simp [hlast]

/-- C3 witness: a declined confirmation with one configured preaction leaves
the preaction unperformed and nothing executed or reported; a single
preaction resolving false after a passed confirmation runs but abandons the
execution silently; a single preaction resolving true leads to processRest. -/
theorem preaction_pipeline_amended_witness :
    ShellCommandExecutor.doPreactionsAndExecuteShellCommand
      true true true false [true] true =
      { performedPreactions := 0, processRestInvoked := false,
        executeCalled := false, errorDisplays := 0 }
    ∧ ShellCommandExecutor.doPreactionsAndExecuteShellCommand
      true true true true [false] true =
      { performedPreactions := 1, processRestInvoked := false,
        executeCalled := false, errorDisplays := 0 }
    ∧ (ShellCommandExecutor.doPreactionsAndExecuteShellCommand
      true true false true [true] true).processRestInvoked = true :=
  ⟨(preaction_pipeline_amended true true true false [true] true
      (Or.inl rfl)).1 rfl rfl,
   (preaction_pipeline_amended true true true true [false] true
      (Or.inl rfl)).2.1 (fun _ => rfl) (by decide),
   ((preaction_pipeline_amended true true false true [true] true
      (Or.inl rfl)).2.2 (fun h => by cases h) (by decide)).1⟩

/-- C1 counterexample: for a shell whose path translator remaps host paths
into a foreign namespace (prefixing /mnt/c) and an absolute configured
working directory, Shell.getWorkingDirectory returns the configured
directory itself, not the directory passed through the shell's path
translator — refuting that in all three cases the result has been passed
through the translator. -/
theorem working_directory_absolute_untranslated :
    posixIsAbsolute "/home/user/dir" = true
    ∧ Shell.getWorkingDirectory wslLikeShell posixIsAbsolute posixJoin
        "/home/user/dir" "/vault" = "/home/user/dir"
    ∧ wslLikeShell.translateAbsolutePath "/home/user/dir" = "/mnt/c/home/user/dir"
    ∧ Shell.getWorkingDirectory wslLikeShell posixIsAbsolute posixJoin
        "/home/user/dir" "/vault" ≠
      wslLikeShell.translateAbsolutePath "/home/user/dir" := by
  refine ⟨by decide, rfl, rfl, by decide⟩

/-- C1 amended: with an empty configured working directory the resolved
directory is the vault's absolute path passed through the shell's path
translator, and with a relative configured directory it is the configured
directory joined to the vault path and then translated; with an ABSOLUTE
configured directory, however, the configured directory is returned
unmodified — without any joining and also without passing through the
shell's path translator.  The legacy resolver
ShellCommandExecutor.getWorkingDirectory distinguishes the same three cases
but applies no shell translation in any of them. -/
theorem working_directory_resolution_amended
    (shell : Shell) (isAbsolute : String → Bool) (join : String → String → String)
    (working_directory vaultAbsolutePath : String) :
    (working_directory.length = 0 →
      Shell.getWorkingDirectory shell isAbsolute join working_directory vaultAbsolutePath =
        shell.translateAbsolutePath vaultAbsolutePath
      ∧ ShellCommandExecutor.getWorkingDirectory isAbsolute join
          working_directory vaultAbsolutePath = vaultAbsolutePath)
    ∧ (working_directory.length ≠ 0 → isAbsolute working_directory = false →
      Shell.getWorkingDirectory shell isAbsolute join working_directory vaultAbsolutePath =
        shell.translateAbsolutePath (join vaultAbsolutePath working_directory)
      ∧ ShellCommandExecutor.getWorkingDirectory isAbsolute join
          working_directory vaultAbsolutePath = join vaultAbsolutePath working_directory)
    ∧ (working_directory.length ≠ 0 → isAbsolute working_directory = true →
      Shell.getWorkingDirectory shell isAbsolute join working_directory vaultAbsolutePath =
        working_directory
      ∧ ShellCommandExecutor.getWorkingDirectory isAbsolute join
          working_directory vaultAbsolutePath = working_directory) := by
  refine ⟨?_, ?_, ?_⟩
  · intro h
    constructor <;> simp [Shell.getWorkingDirectory,
      ShellCommandExecutor.getWorkingDirectory, h]
  · intro h habs
    constructor <;> simp [Shell.getWorkingDirectory,
      ShellCommandExecutor.getWorkingDirectory, h, habs]
  · intro h habs
    constructor <;> simp [Shell.getWorkingDirectory,
      ShellCommandExecutor.getWorkingDirectory, h, habs]

/-- C1 amended witness: with the WSL-like shell, an empty configured
directory resolves to the translated vault path, the relative directory sub
resolves to the translated join, and the absolute directory /opt is
returned untranslated by both resolvers. -/
theorem working_directory_resolution_amended_witness :
    Shell.getWorkingDirectory wslLikeShell posixIsAbsolute posixJoin "" "/vault" =
      "/mnt/c/vault"
    ∧ Shell.getWorkingDirectory wslLikeShell posixIsAbsolute posixJoin "sub" "/vault" =
      "/mnt/c/vault/sub"
    ∧ Shell.getWorkingDirectory wslLikeShell posixIsAbsolute posixJoin "/opt" "/vault" =
      "/opt"
    ∧ ShellCommandExecutor.getWorkingDirectory posixIsAbsolute posixJoin "/opt" "/vault" =
      "/opt" := by
  have he := (working_directory_resolution_amended wslLikeShell posixIsAbsolute posixJoin
    "" "/vault").1 (by decide)
  have hr := (working_directory_resolution_amended wslLikeShell posixIsAbsolute posixJoin
    "sub" "/vault").2.1 (by decide) (by decide)
  have ha := (working_directory_resolution_amended wslLikeShell posixIsAbsolute posixJoin
    "/opt" "/vault").2.2 (by decide) (by decide)
  exact ⟨he.1, hr.1, ha.1, ha.2⟩

/-- C9: New shell-command ID generation: over configuration states whose
shell-command IDs are decimal digit strings (the only IDs the plugin itself
creates), generateNewShellCommandID returns the string 0 when no shell
commands exist, and otherwise renders one plus the maximum of the existing
IDs interpreted as integers; the maximum is a genuine upper bound attained
by some existing ID, and the returned ID never collides with any existing
ID. -/
theorem generateNewShellCommandID_fresh (existing_ids : List String)
    (hdig : ∀ k ∈ existing_ids,
      k.toList ≠ [] ∧ ∀ c ∈ k.toList, isDecimalDigit c = true) :
    (existing_ids = [] → SC_Plugin.generateNewShellCommandID existing_ids = "0")
    ∧ (existing_ids ≠ [] →
      SC_Plugin.generateNewShellCommandID existing_ids =
        intToStringJS
          ((existing_ids.map (fun k => (decimalValue k.toList : Int))).foldl max 0 + 1))
    ∧ (∀ k ∈ existing_ids, (decimalValue k.toList : Int) ≤
        (existing_ids.map (fun k => (decimalValue k.toList : Int))).foldl max 0)
    ∧ (existing_ids ≠ [] →
      (existing_ids.map (fun k => (decimalValue k.toList : Int))).foldl max 0 ∈
        existing_ids.map (fun k => (decimalValue k.toList : Int)))
    ∧ (∀ k ∈ existing_ids, SC_Plugin.generateNewShellCommandID existing_ids ≠ k) := by
  have hfold : SC_Plugin.generateNewShellCommandID existing_ids =
      intToStringJS
        ((existing_ids.map (fun k => (decimalValue k.toList : Int))).foldl
          (fun new_id v => if new_id ≤ v then v + 1 else new_id) 0) := by
    rw [SC_Plugin.generateNewShellCommandID, generateID_fold_as_values existing_ids hdig 0]
  have hupper := foldl_max_upper
    (existing_ids.map (fun k => (decimalValue k.toList : Int))) 0
  have hub : ∀ k ∈ existing_ids, (decimalValue k.toList : Int) ≤
      (existing_ids.map (fun k => (decimalValue k.toList : Int))).foldl max 0 := by
    intro k hk
    exact hupper.2 _ (List.mem_map_of_mem (fun k => (decimalValue k.toList : Int)) hk)
  have hmaxeq : existing_ids ≠ [] →
      SC_Plugin.generateNewShellCommandID existing_ids =
        intToStringJS
          ((existing_ids.map (fun k => (decimalValue k.toList : Int))).foldl max 0 + 1) := by
    intro hne
    rcases existing_ids with _ | ⟨k0, krest⟩
    · exact absurd rfl hne
    · rw [hfold]
      congr 1
      rw [foldl_scStep_eq_foldl_maxAdd]
      simp only [List.map_cons, List.foldl_cons]
      rw [max_eq_right (by positivity : (0 : Int) ≤ (decimalValue k0.toList : Int) + 1),
        max_eq_right (by positivity : (0 : Int) ≤ (decimalValue k0.toList : Int))]
      exact foldl_maxAdd_shift _ _
  refine ⟨?_, hmaxeq, hub, ?_, ?_⟩
  · intro h
    subst h
    rw [hfold]
    decide
  · intro hne
    rcases foldl_max_attained
        (existing_ids.map (fun k => (decimalValue k.toList : Int))) 0 with h0 | hmem
    · rcases existing_ids with _ | ⟨k0, krest⟩
      · exact absurd rfl hne
      · have hk0 : ((decimalValue k0.toList : Int)) ≤ 0 := by
          rw [← h0]
          exact hub k0 (List.mem_cons_self k0 krest)
        have hk0z : ((decimalValue k0.toList : Int)) = 0 := le_antisymm hk0 (by positivity)
        rw [h0, ← hk0z]
        exact List.mem_map_of_mem _ (List.mem_cons_self k0 krest)
    · exact hmem
  · intro k hk heq
    have hne : existing_ids ≠ [] := by
      intro h
      rw [h] at hk
      exact absurd hk (List.not_mem_nil k)
    have hM : (0 : Int) ≤
        (existing_ids.map (fun k => (decimalValue k.toList : Int))).foldl max 0 :=
      hupper.1
    rw [hmaxeq hne] at heq
    rw [intToStringJS, if_neg (by omega)] at heq
    have hlist : k.toList = natToDigitList
        (((existing_ids.map (fun k => (decimalValue k.toList : Int))).foldl max 0 + 1).toNat) := by
      rw [← heq]
      rfl
    have hval : (decimalValue k.toList : Int) =
        (existing_ids.map (fun k => (decimalValue k.toList : Int))).foldl max 0 + 1 := by
      rw [hlist, decimalValue_natToDigitList, Int.toNat_of_nonneg (by omega)]
    have := hub k hk
    omega

/-- C9 witness: for existing IDs 0, 3 and 1 the generated ID is the
rendering of the maximum plus one, which evaluates to 4 and collides with
none of the existing IDs. -/
theorem generateNewShellCommandID_fresh_witness :
    SC_Plugin.generateNewShellCommandID ["0", "3", "1"] = "4"
    ∧ ∀ k ∈ ["0", "3", "1"],
      SC_Plugin.generateNewShellCommandID ["0", "3", "1"] ≠ k := by
  have h := generateNewShellCommandID_fresh ["0", "3", "1"] (by decide)
  refine ⟨?_, h.2.2.2.2⟩
  rw [h.2.1 (by decide)]
  decide
